import Mathlib

/-!
Shallow embedding of `encoder.py` (the tape-machine interpreter `brainfuck.decode`,
the program synthesizer `brainfuck.encode`, the `BFHandler` tape machine, and `rot13`).
Strings are modelled as lists of code points (`List Nat`), matching Python strings
as sequences of code points.  Python dicts are modelled as insertion-ordered
association lists.  Python lists of ints are `List Int` with Python's negative
indexing.  Fallible operations return `Except PyErr`.
-/

deriving instance DecidableEq for Except

set_option maxRecDepth 100000

namespace Encoder

/-- Python exception classes that the embedded code can raise. -/
inductive PyErr where
  | indexError
  | keyError
  | typeError
  | valueError
  | eofError
deriving DecidableEq, Repr

/-- Python `d[k] = v` on an insertion-ordered dict: update in place if the key
exists (keeping its position), otherwise append at the end. -/
def dictSet {α : Type} (d : List (Nat × α)) (k : Nat) (v : α) : List (Nat × α) :=
  if d.any (fun kv => kv.1 == k) then
    d.map (fun kv => if kv.1 == k then (k, v) else kv)
  else
    d ++ [(k, v)]

/-- Python `d[k]` / `d.get(k)`: the value at key `k`, if present. -/
def dictGet {α : Type} (d : List (Nat × α)) (k : Nat) : Option α :=
  (d.find? (fun kv => kv.1 == k)).map Prod.snd

/-- Python `k in d`: key membership. -/
def dictContains {α : Type} (d : List (Nat × α)) (k : Nat) : Bool :=
  d.any (fun kv => kv.1 == k)

/-- Python `sorted(d)[-1]`: the greatest key of the dict, or `none` when the dict
is empty (in which case `[-1]` raises `IndexError`). -/
def dictMaxKey {α : Type} (d : List (Nat × α)) : Option Nat :=
  match d with
  | [] => none
  | kv :: rest => some (rest.foldl (fun m x => max m x.1) kv.1)

/-- Lookup in the reversed dict `{v: k for k, v in d.items()}` at value `v`:
for duplicate values the later entry wins, and `None` values never match a
numeric key. -/
def reverseLookup (d : List (Nat × Option Nat)) (v : Nat) : Option Nat :=
  ((d.filter (fun kv => kv.2 == some v)).getLast?).map Prod.fst

/-- Python list read `l[i]`: a negative index `i` with `-len l ≤ i` wraps to
`l[len l + i]`; anything further out raises `IndexError`. -/
def pyGet (l : List Int) (i : Int) : Except PyErr Int :=
  if h0 : 0 ≤ i then
    if h : i.toNat < l.length then .ok (l.get ⟨i.toNat, h⟩) else .error .indexError
  else
    if h : (-i).toNat ≤ l.length then
      .ok (l.get ⟨l.length - (-i).toNat, by omega⟩)
    else .error .indexError

/-- Python list write `l[i] = v`, with the same index rule as `pyGet`. -/
def pySet (l : List Int) (i : Int) (v : Int) : Except PyErr (List Int) :=
  if 0 ≤ i then
    if i.toNat < l.length then .ok (l.set i.toNat v) else .error .indexError
  else
    if (-i).toNat ≤ l.length then .ok (l.set (l.length - (-i).toNat) v)
    else .error .indexError

/-- The mutable state of `BFHandler`: the cell array `handler`, the tape cursor
`pointer` (an `int` in Python, so it can go negative), and the bracket dict. -/
structure BFHandler where
  handler : List Int
  pointer : Int
  brackets : List (Nat × Option Nat)
deriving DecidableEq, Repr

/-- `BFHandler.__init__`: one zero cell, cursor 0, empty bracket dict. -/
def BFHandler.init : BFHandler := ⟨[0], 0, []⟩

/-- `open_bracket`: `self.brackets[pointer] = None`. -/
def BFHandler.open_bracket (st : BFHandler) (p : Nat) : BFHandler :=
  { st with brackets := dictSet st.brackets p none }

/-- `close_bracket`: `toget = sorted(self.brackets)[-1]; self.brackets[toget] = pointer`.
Note it takes the greatest registered open position whether or not it is already
paired; on an empty dict the `[-1]` raises `IndexError`. -/
def BFHandler.close_bracket (st : BFHandler) (p : Nat) : Except PyErr BFHandler :=
  match dictMaxKey st.brackets with
  | none => .error .indexError
  | some k => .ok { st with brackets := dictSet st.brackets k (some p) }

/-- `move_right`: cursor += 1, appending a zero cell when the cursor reaches the
current length. -/
def BFHandler.move_right (st : BFHandler) : BFHandler :=
  let p := st.pointer + 1
  if (st.handler.length : Int) ≤ p then
    { st with handler := st.handler ++ [0], pointer := p }
  else
    { st with pointer := p }

/-- `move_left`: cursor -= 1, with no bounds check. -/
def BFHandler.move_left (st : BFHandler) : BFHandler :=
  { st with pointer := st.pointer - 1 }

/-- The cell update performed by `inc`: add one, then reset 256 to 0. -/
def incVal (v : Int) : Int := if v + 1 = 256 then 0 else v + 1

/-- The cell update performed by `dec`: subtract one, then reset -1 to 255. -/
def decVal (v : Int) : Int := if v - 1 = -1 then 255 else v - 1

/-- `inc`: `self.handler[self.pointer] += 1`, then the 256 check; the read/write
pair at a valid index collapses to one write of `incVal`. -/
def BFHandler.inc (st : BFHandler) : Except PyErr BFHandler := do
  let v ← pyGet st.handler st.pointer
  let l ← pySet st.handler st.pointer (incVal v)
  pure { st with handler := l }

/-- `dec`: mirror image of `inc` with the -1 check. -/
def BFHandler.dec (st : BFHandler) : Except PyErr BFHandler := do
  let v ← pyGet st.handler st.pointer
  let l ← pySet st.handler st.pointer (decVal v)
  pure { st with handler := l }

/-- `get_value`: `chr(self.handler[self.pointer])`; `chr` raises `ValueError`
outside `[0, 0x110000)`.  We return the code point. -/
def BFHandler.get_value (st : BFHandler) : Except PyErr Nat := do
  let v ← pyGet st.handler st.pointer
  if 0 ≤ v ∧ v < 1114112 then pure v.toNat else throw .valueError

/-- `set_value`: `self.handler[self.pointer] = ord(inp)`. -/
def BFHandler.set_value (st : BFHandler) (c : Nat) : Except PyErr BFHandler := do
  let l ← pySet st.handler st.pointer (c : Int)
  pure { st with handler := l }

/-- `get_current`: the raw value of the current cell. -/
def BFHandler.get_current (st : BFHandler) : Except PyErr Int :=
  pyGet st.handler st.pointer

namespace brainfuck

/-- The code points of the eight instruction characters `+ - . , [ ] < >`
(the class attribute `_allowed`). -/
def allowed : List Nat := [43, 45, 46, 44, 91, 93, 60, 62]

/-- `brainfuck.offset(run, items)`: the number of integers `j` with
`1 <= j < run` that are not keys of `items` (the while loop over `runner`). -/
def offset (run : Nat) (items : List (Nat × Bool)) : Nat :=
  if run = 0 then 0
  else (((List.range run).drop 1).filter (fun j => !(dictContains items j))).length

/-- The bracket pre-scan of `decode`: walk the filtered stream, calling
`open_bracket` on `[` and `close_bracket` on `]` at the running position. -/
def prescanGo : List Nat → Nat → BFHandler → Except PyErr BFHandler
  | [], _, st => .ok st
  | c :: rest, p, st =>
    if c = 91 then prescanGo rest (p + 1) (st.open_bracket p)
    else if c = 93 then
      match st.close_bracket p with
      | .error e => .error e
      | .ok st1 => prescanGo rest (p + 1) st1
    else prescanGo rest (p + 1) st

/-- Run the bracket pre-scan from position 0 on a fresh `BFHandler`. -/
def prescan (new : List Nat) : Except PyErr BFHandler :=
  prescanGo new 0 BFHandler.init

/-- The outcome of an interpreter run: normal output, a Python exception, or
fuel exhaustion (the source's `while True` loop need not terminate). -/
inductive BFResult where
  | ok : List Nat → BFResult
  | error : PyErr → BFResult
  | timeout : BFResult
deriving DecidableEq, Repr

/-- One-instruction effect inside the `while True` loop of `decode`: given the
current state, instruction position, remaining input characters and output so
far, produce the updated state, the position before the trailing `pointer += 1`,
the remaining input and the output. -/
def stepAt (new : List Nat) (st : BFHandler) (ip : Nat) (h : ip < new.length)
    (stdin out : List Nat) :
    Except PyErr (BFHandler × Nat × List Nat × List Nat) :=
  let c := new.get ⟨ip, h⟩
  if c = 43 then (st.inc).map (fun s => (s, ip, stdin, out))
  else if c = 45 then (st.dec).map (fun s => (s, ip, stdin, out))
  else if c = 91 then
    match st.get_current with
    | .error e => .error e
    | .ok v =>
      if v = 0 then
        match dictGet st.brackets ip with
        | none => .error .keyError
        | some none => .error .typeError
        | some (some t) => .ok (st, t, stdin, out)
      else .ok (st, ip, stdin, out)
  else if c = 93 then
    match st.get_current with
    | .error e => .error e
    | .ok v =>
      if v = 0 then .ok (st, ip, stdin, out)
      else
        match reverseLookup st.brackets ip with
        | none => .error .keyError
        | some t => .ok (st, t, stdin, out)
  else if c = 60 then .ok (st.move_left, ip, stdin, out)
  else if c = 62 then .ok (st.move_right, ip, stdin, out)
  else if c = 46 then
    match st.get_value with
    | .error e => .error e
    | .ok v => .ok (st, ip, stdin, out ++ [v])
  else if c = 44 then
    match stdin with
    | [] => .error .eofError
    | x :: rest =>
      match st.set_value x with
      | .error e => .error e
      | .ok s => .ok (s, ip, rest, out)
  else .ok (st, ip, stdin, out)

/-- The `while True` execution loop of `decode`, with explicit fuel: fetch
`new[pointer]`, apply the instruction, then `pointer += 1` and stop when the
position reaches the stream length. -/
def run (new : List Nat) : Nat → BFHandler → Nat → List Nat → List Nat → BFResult
  | 0, _, _, _, _ => .timeout
  | fuel + 1, st, ip, stdin, out =>
    if h : ip < new.length then
      match stepAt new st ip h stdin out with
      | .error e => .error e
      | .ok (st1, ip1, stdin1, out1) =>
        if ip1 + 1 = new.length then .ok out1
        else run new fuel st1 (ip1 + 1) stdin1 out1
    else .error .indexError

/-- `brainfuck.decode(line)`: filter to instruction characters, return `""` if
nothing is left, pre-scan the brackets, then execute.  The `,` instruction
consumes one character from `stdin` (the interactive prompt); `fuel` bounds the
number of executed instructions. -/
def decode (line stdin : List Nat) (fuel : Nat) : BFResult :=
  let new := line.filter (fun c => c ∈ allowed)
  if new = [] then .ok []
  else
    match prescan new with
    | .error e => .error e
    | .ok st => run new fuel st 0 stdin []

/-- Python `max(ords)`: greatest element, `None` marking the `ValueError` raised
on an empty sequence. -/
def listMax : List Nat → Option Nat
  | [] => none
  | x :: rest => some (rest.foldl max x)

/-- The per-character emission loop of `encode`: thread the current tape
position `run` and the `values` baseline dict through the characters of the
text, emitting cursor moves, `+`/`-` adjustments and `.` for each one. -/
def emitChars : List Nat → Nat → List (Nat × Bool) → List (Nat × Nat) → Nat →
    Except PyErr (List Nat)
  | [], _, _, _, _ => .ok []
  | r :: rest, maxlen, items, values, runPos =>
    let num0 := r / maxlen
    let off := offset num0 items
    let num := num0 - off
    match dictGet values num with
    | none => .error .keyError
    | some val =>
      let moves : List Nat :=
        if runPos < num then List.replicate (num - runPos) 62
        else if num < runPos then List.replicate (runPos - num) 60
        else []
      let adj : List Nat :=
        if val < r then List.replicate (r - val) 43
        else if r < val then List.replicate (val - r) 45
        else []
      match emitChars rest maxlen items (dictSet values num r) num with
      | .error e => .error e
      | .ok tail => .ok (moves ++ adj ++ [46] ++ tail)

/-- `brainfuck.encode(line, maxlen)`: clamp the bucket size, collect the used
buckets in first-occurrence order, optionally emit the setup loop, build the
`values` baseline dict, then emit the per-character stream.  `max(ords)` on an
empty text raises `ValueError`; a character whose bucket is 0 hits a missing
`values` key and raises `KeyError`. -/
def encode (line : List Nat) (maxlen0 : Int) : Except PyErr (List Nat) :=
  let maxlen : Nat := (if maxlen0 < 1 then 1 else maxlen0).toNat
  let items : List (Nat × Bool) :=
    line.foldl (fun d c => dictSet d (c / maxlen) true) []
  match listMax line with
  | none => .error .valueError
  | some mx =>
    let loopOn : Bool := decide (maxlen ≤ mx) && decide (1 < maxlen)
    let header : List Nat := if loopOn then List.replicate maxlen 43 ++ [91] else []
    let used := items.filter (fun kv => decide (kv.1 ≠ 0) && kv.2)
    let body := used.foldl (fun acc kv => acc ++ 62 :: List.replicate kv.1 43) []
    let backs : List Nat := List.replicate used.length 60
    let footer : List Nat := if loopOn then [45, 93] else []
    let values : List (Nat × Nat) :=
      ((List.range (256 / maxlen + 1)).drop 1).foldl
        (fun vals runner =>
          let off := offset runner items
          if off < runner then dictSet vals (runner - off) (maxlen * runner)
          else vals) []
    match emitChars line maxlen items values 0 with
    | .error e => .error e
    | .ok tail => .ok (header ++ body ++ backs ++ footer ++ tail)

end brainfuck

/-- The `_rot13` dict: the nested loops insert, for `c` in `(65, 97)` and `i` in
`range(26)`, the pair `chr(i+c) -> chr((i+13) % 26 + c)`; the keys are distinct,
so insertion order yields exactly this association list. -/
def rot13Map : List (Nat × Nat) :=
  (List.range 26).map (fun i => (65 + i, (i + 13) % 26 + 65)) ++
    (List.range 26).map (fun i => (97 + i, (i + 13) % 26 + 97))

/-- The per-character action of `rot13`: `_rot13.get(c, c)`. -/
def rot13Char (c : Nat) : Nat := (dictGet rot13Map c).getD c

/-- `rot13(line)`: map `_rot13.get(c, c)` over the characters. -/
def rot13 (line : List Nat) : List Nat :=
  line.map rot13Char

/-- Code points of a string literal, for stating concrete scenarios. -/
def strCodes (s : String) : List Nat := s.data.map Char.toNat

/-- Helper for inspecting a generated program: the lengths of the maximal
`+`-runs that immediately follow each `>`.  The accumulator holds the length of
the run currently being counted. -/
def plusRunsGo : List Nat → Option Nat → List Nat
  | [], none => []
  | [], some n => [n]
  | c :: rest, acc =>
    if c = 62 then
      match acc with
      | some n => n :: plusRunsGo rest (some 0)
      | none => plusRunsGo rest (some 0)
    else if c = 43 then
      match acc with
      | some n => plusRunsGo rest (some (n + 1))
      | none => plusRunsGo rest none
    else
      match acc with
      | some n => n :: plusRunsGo rest none
      | none => plusRunsGo rest none

/-- The `+`-run lengths following each `>` in an instruction list. -/
def plusRuns (l : List Nat) : List Nat := plusRunsGo l none

/-!
Theorems settling the claims.
-/

/-- C1: the round-trip `interpret(synthesize(s, b)) = s` fails.  At text `"zA"`
and bucket size 10 the synthesizer emits the setup loads in first-occurrence
order of the buckets (12 then 6) while the per-character pass addresses cells by
ascending bucket rank, so the produced program prints `">}"` rather than `"zA"`;
and at bucket size 255 every printable character falls in bucket 0, whose
baseline is missing from the `values` dict, so synthesis raises `KeyError`. -/
theorem c1_roundtrip_bug :
    brainfuck.encode (strCodes "zA") 10 =
      .ok (strCodes "++++++++++[>++++++++++++>++++++<<-]>>++.<+++++.") ∧
    brainfuck.decode (strCodes "++++++++++[>++++++++++++>++++++<<-]>>++.<+++++.") [] 1000 =
      .ok (strCodes ">\x7d") ∧
    strCodes ">\x7d" ≠ strCodes "zA" ∧
    brainfuck.encode (strCodes "A") 255 = .error .keyError := by
  refine ⟨by decide, by decide, by decide, by decide⟩

/-- C2: the setup loop does not visit buckets in increasing key order.  For text
`"zA"` at bucket size 10 the distinct nonzero buckets are 12 (from `z`) and 6
(from `A`) and the emitted `+`-runs after each `>` in the setup section are
`[12, 6]` — the first-occurrence order, not the ascending order `[6, 12]`. -/
theorem c2_setup_order_bug :
    brainfuck.encode (strCodes "zA") 10 =
      .ok (strCodes "++++++++++[>++++++++++++>++++++<<-]>>++.<+++++.") ∧
    plusRuns ((strCodes "++++++++++[>++++++++++++>++++++<<-]>>++.<+++++.").takeWhile
      (fun c => c != 45)) = [12, 6] ∧
    [12, 6] ≠ [6, 12] := by
  refine ⟨by decide, by decide, by decide⟩

/-- C3: `close_bracket` does not follow stack discipline.  On the balanced
bracket string `[[]]` (open at 0, open at 1, close at 2, close at 3) it pairs
the close at 3 with the greatest key 1 — which is already paired — overwriting
`1 ↦ 2` and leaving the open at 0 unpaired, instead of the structural-nesting
map `{0 ↦ 3, 1 ↦ 2}`; consequently interpreting `"[[]]"` aborts with a
`TypeError` on the `None` jump target. -/
theorem c3_close_bracket_bug :
    (((BFHandler.init.open_bracket 0).open_bracket 1).close_bracket 2).bind
        (fun s => s.close_bracket 3) =
      (.ok ⟨[0], 0, [(0, none), (1, some 3)]⟩ : Except PyErr BFHandler) ∧
    brainfuck.decode (strCodes "[[]]") [] 10 = .error .typeError := by
  refine ⟨by decide, by decide⟩

/-- C4 counterexample: moving the cursor left of cell 0 is not fatal.  The
program `"<+."` moves to cursor -1, silently wraps to the last cell (cell 0,
Python negative indexing), increments it and prints code point 1; `"<."`
likewise returns output instead of aborting. -/
theorem c4_underflow_counterexample :
    brainfuck.decode (strCodes "<+.") [] 10 = .ok [1] ∧
    brainfuck.decode (strCodes "<.") [] 10 = .ok [0] := by
  refine ⟨by decide, by decide⟩

/-- C4 amended: a cell access at a negative cursor `i` wraps to cell
`length + i` whenever `-i ≤ length`, and raises `IndexError` only when
`-i > length`. -/
theorem c4_underflow_amended (l : List Int) (i : Int) (hneg : i < 0) :
    ((-i).toNat ≤ l.length →
      ∃ hlt : l.length - (-i).toNat < l.length,
        pyGet l i = .ok (l.get ⟨l.length - (-i).toNat, hlt⟩)) ∧
    ((l.length : Int) < -i → pyGet l i = .error .indexError) := by
  constructor
  · intro hle
    have hlt : l.length - (-i).toNat < l.length := by omega
    refine ⟨hlt, ?_⟩
    unfold pyGet
    rw [dif_neg (by omega : ¬ (0 : Int) ≤ i), dif_pos hle]
  · intro hgt
    unfold pyGet
    rw [dif_neg (by omega : ¬ (0 : Int) ≤ i), dif_neg (by omega : ¬ (-i).toNat ≤ l.length)]

/-- C4 witness: on the two-cell tape `[7, 9]`, reading index -1 wraps to the
last cell and yields 9, while reading index -3 raises `IndexError`. -/
theorem c4_underflow_witness :
    pyGet [7, 9] (-1) = .ok 9 ∧ pyGet [7, 9] (-3) = .error .indexError := by
  constructor
  · obtain ⟨hlt, he⟩ := (c4_underflow_amended [7, 9] (-1) (by decide)).1 (by decide)
    rw [he]
    rfl
  · exact (c4_underflow_amended [7, 9] (-3) (by decide)).2 (by decide)

/-- C5 counterexample: a `]` with no outstanding unpaired `[` does not abort
interpretation.  In `"[]]"` the second close silently re-pairs the greatest
registered open, and the program returns `""` normally. -/
theorem c5_unbalanced_counterexample :
    brainfuck.decode (strCodes "[]]") [] 10 = .ok [] := by decide

/-- C5 amended: `interpret("[")` does abort (its unpaired open jumps to a `None`
target, a `TypeError`) and `interpret("]")` does abort (`sorted([])[-1]`, an
`IndexError`), both with no output; but unbalanced brackets are not rejected in
general — an unpaired `[` that is never taken as a jump completes normally, as
in `interpret("+[") = ""`. -/
theorem c5_unbalanced_amended :
    brainfuck.decode (strCodes "[") [] 10 = .error .typeError ∧
    brainfuck.decode (strCodes "]") [] 10 = .error .indexError ∧
    brainfuck.decode (strCodes "+[") [] 10 = .ok [] := by
  refine ⟨by decide, by decide, by decide⟩

/-- C6: `interpret("")` (and any input with no instruction characters) yields
`""`, but `synthesize("")` does not: it raises `ValueError` at `max(ords)` on
the empty sequence instead of returning `""`. -/
theorem c6_empty_input_bug :
    brainfuck.decode (strCodes "") [] 10 = .ok [] ∧
    brainfuck.decode (strCodes "abc xyz") [] 10 = .ok [] ∧
    brainfuck.encode (strCodes "") 10 = .error .valueError := by
  refine ⟨by decide, by decide, by decide⟩

/-- C7: cell arithmetic wraps around — incrementing 255 gives 0, decrementing 0
gives 255, and from any starting value in `[0, 255]` both `inc` and `dec` keep
the cell value in `[0, 255]`. -/
theorem c7_wraparound (v : Int) (h0 : 0 ≤ v) (h1 : v ≤ 255) :
    (0 ≤ incVal v ∧ incVal v ≤ 255) ∧ (0 ≤ decVal v ∧ decVal v ≤ 255) ∧
      incVal 255 = 0 ∧ decVal 0 = 255 := by
  refine ⟨?_, ?_, by decide, by decide⟩ <;>
    simp only [incVal, decVal] <;> split_ifs <;> omega

/-- C7 witness: the wraparound theorem instantiated at cell value 200. -/
theorem c7_wraparound_witness :
    (0 ≤ incVal 200 ∧ incVal 200 ≤ 255) ∧ (0 ≤ decVal 200 ∧ decVal 200 ≤ 255) ∧
      incVal 255 = 0 ∧ decVal 0 = 255 :=
  c7_wraparound 200 (by decide) (by decide)

/-- C8: interpreting `"++++++++[>++++<-]>+."` outputs exactly the character with
code point 33, which is `"!"`. -/
theorem c8_concrete_interpret :
    brainfuck.decode (strCodes "++++++++[>++++<-]>+.") [] 300 = .ok [33] ∧
    strCodes "!" = [33] := by
  refine ⟨by decide, by decide⟩

/-- C9: `synthesize("A", 10)` produces exactly the program
`"++++++++++[>++++++<-]>+++++."` — a setup loop loading baseline 60 (ten passes
adding 6) into the fresh cell for bucket 6, then five `+` to reach 65 and a `.`
— and interpreting that program yields exactly `"A"`. -/
theorem c9_concrete_synthesize :
    brainfuck.encode (strCodes "A") 10 = .ok (strCodes "++++++++++[>++++++<-]>+++++.") ∧
    brainfuck.decode (strCodes "++++++++++[>++++++<-]>+++++.") [] 500 = .ok (strCodes "A") := by
  refine ⟨by decide, by decide⟩

/-- Lookup in the rot13 table at an upper-case letter code. -/
theorem dictGet_rot13Map_upper (c : Nat) (h1 : 65 ≤ c) (h2 : c ≤ 90) :
    dictGet rot13Map c = some (65 + (c - 65 + 13) % 26) := by
  interval_cases c <;> decide

/-- Lookup in the rot13 table at a lower-case letter code. -/
theorem dictGet_rot13Map_lower (c : Nat) (h1 : 97 ≤ c) (h2 : c ≤ 122) :
    dictGet rot13Map c = some (97 + (c - 97 + 13) % 26) := by
  interval_cases c <;> decide

/-- Every key of the rot13 table is a letter code. -/
theorem rot13Map_mem_bounds (kv : Nat × Nat) (h : kv ∈ rot13Map) :
    (65 ≤ kv.1 ∧ kv.1 ≤ 90) ∨ (97 ≤ kv.1 ∧ kv.1 ≤ 122) := by
  simp only [rot13Map, List.mem_append, List.mem_map, List.mem_range] at h
  rcases h with ⟨i, hi, rfl⟩ | ⟨i, hi, rfl⟩ <;> dsimp only <;> omega

/-- Lookup in the rot13 table misses at every non-letter code. -/
theorem dictGet_rot13Map_none (c : Nat) (h1 : ¬(65 ≤ c ∧ c ≤ 90))
    (h2 : ¬(97 ≤ c ∧ c ≤ 122)) : dictGet rot13Map c = none := by
  have hf : rot13Map.find? (fun kv => kv.1 == c) = none := by
    rw [List.find?_eq_none]
    intro x hx
    have hb := rot13Map_mem_bounds x hx
    simp only [beq_iff_eq]
    omega
  simp [dictGet, hf]

/-- Action of `rot13` on one upper-case letter code. -/
theorem rot13Char_upper (c : Nat) (h1 : 65 ≤ c) (h2 : c ≤ 90) :
    rot13Char c = 65 + (c - 65 + 13) % 26 := by
  simp only [rot13Char, dictGet_rot13Map_upper c h1 h2, Option.getD_some]

/-- Action of `rot13` on one lower-case letter code. -/
theorem rot13Char_lower (c : Nat) (h1 : 97 ≤ c) (h2 : c ≤ 122) :
    rot13Char c = 97 + (c - 97 + 13) % 26 := by
  simp only [rot13Char, dictGet_rot13Map_lower c h1 h2, Option.getD_some]

/-- Action of `rot13` on one non-letter code. -/
theorem rot13Char_other (c : Nat) (h1 : ¬(65 ≤ c ∧ c ≤ 90))
    (h2 : ¬(97 ≤ c ∧ c ≤ 122)) : rot13Char c = c := by
  simp only [rot13Char, dictGet_rot13Map_none c h1 h2, Option.getD_none]

/-- The per-character action of `rot13` is an involution. -/
theorem rot13Char_invol (c : Nat) : rot13Char (rot13Char c) = c := by
  by_cases hu : 65 ≤ c ∧ c ≤ 90
  · obtain ⟨h1, h2⟩ := hu
    have hm : (c - 65 + 13) % 26 < 26 := Nat.mod_lt _ (by norm_num)
    rw [rot13Char_upper c h1 h2, rot13Char_upper _ (by omega) (by omega)]
    have h3 : 65 + (c - 65 + 13) % 26 - 65 = (c - 65 + 13) % 26 := by omega
    rw [h3, Nat.mod_add_mod]
    have h4 : c - 65 + 13 + 13 = (c - 65) + 26 := by omega
    rw [h4, Nat.add_mod_right, Nat.mod_eq_of_lt (by omega)]
    omega
  · by_cases hl : 97 ≤ c ∧ c ≤ 122
    · obtain ⟨h1, h2⟩ := hl
      have hm : (c - 97 + 13) % 26 < 26 := Nat.mod_lt _ (by norm_num)
      rw [rot13Char_lower c h1 h2, rot13Char_lower _ (by omega) (by omega)]
      have h3 : 97 + (c - 97 + 13) % 26 - 97 = (c - 97 + 13) % 26 := by omega
      rw [h3, Nat.mod_add_mod]
      have h4 : c - 97 + 13 + 13 = (c - 97) + 26 := by omega
      rw [h4, Nat.add_mod_right, Nat.mod_eq_of_lt (by omega)]
      omega
    · have hc := rot13Char_other c hu hl
      rw [hc, hc]

/-- C10: `rot13` is an involution on every string, leaves every non-letter code
point unchanged, and rotates each letter by 13 within its own case. -/
theorem c10_rot13 (s : List Nat) :
    rot13 (rot13 s) = s ∧
    (∀ c, ¬(65 ≤ c ∧ c ≤ 90) → ¬(97 ≤ c ∧ c ≤ 122) → rot13 [c] = [c]) ∧
    (∀ c, 65 ≤ c → c ≤ 90 → rot13 [c] = [65 + (c - 65 + 13) % 26]) ∧
    (∀ c, 97 ≤ c → c ≤ 122 → rot13 [c] = [97 + (c - 97 + 13) % 26]) := by
  refine ⟨?_, ?_, ?_, ?_⟩
  · induction s with
    | nil => rfl
    | cons c t ih =>
      simp only [rot13, List.map_cons] at ih ⊢
      rw [rot13Char_invol c, ih]
  · intro c h1 h2
    simp only [rot13, List.map_cons, List.map_nil, rot13Char_other c h1 h2]
  · intro c h1 h2
    simp only [rot13, List.map_cons, List.map_nil, rot13Char_upper c h1 h2]
  · intro c h1 h2
    simp only [rot13, List.map_cons, List.map_nil, rot13Char_lower c h1 h2]

/-- C10 witness: the rot13 theorem applied at a concrete string and at the
concrete code points 48 (`"0"`), 65 (`"A"`) and 122 (`"z"`). -/
theorem c10_rot13_witness :
    rot13 (rot13 (strCodes "Hello, World!")) = strCodes "Hello, World!" ∧
    rot13 [48] = [48] ∧ rot13 [65] = [78] ∧ rot13 [122] = [109] := by
  refine ⟨(c10_rot13 (strCodes "Hello, World!")).1,
    (c10_rot13 []).2.1 48 (by decide) (by decide),
    ((c10_rot13 []).2.2.1 65 (by decide) (by decide)).trans (by decide),
    ((c10_rot13 []).2.2.2 122 (by decide) (by decide)).trans (by decide)⟩

end Encoder
